import Mathlib

/-!
Verification development for the student-management repository
(`project.py`).  The persistence layer (CSV-backed record store), the
grade policy, the record operations (add / update / delete) and the
dashboard aggregation are shallowly embedded below, and the behavioural
claims about them are settled as theorems.

Modelling conventions:
* A Python `dict` produced by `csv.DictReader` is an association list
  with unique keys, `Record := List (String × Option String)`; a value
  `none` models Python `None` (the `restval` padding that `DictReader`
  uses for rows shorter than the header).
* The CSV file is `CSVFile`: a header line plus data rows, each a list
  of cell strings.  A missing file is `(none : Option CSVFile)`.
* Python floats are modelled by `ℚ`; `float(...)` coercion failure is
  modelled by `Option`.  (IEEE NaN/inf inputs and binary representation
  error of `round` are outside the scope of the claims and abstracted.)
* `csv.DictWriter` with the default `extrasaction='raise'` raises
  `ValueError` on a record carrying a key outside the declared field
  names; `save_data` therefore returns `Except`.  The partial write the
  real exception leaves behind is abstracted: no claim touches it.
* The numeric widgets of the UI hand `add_student` integer Marks and
  Attendance values; the embedding stores their decimal string form,
  which is what `DictWriter` ultimately writes.
-/

/-- A Python dict as produced/consumed by the csv module: an ordered
association list with unique keys; `none` values model Python `None`. -/
abbrev Record := List (String × Option String)

/-- The fixed column set of `save_data` (`fieldnames` in `project.py`). -/
def FIELDNAMES : List String :=
  ["Name", "Roll", "Course", "Gender", "DOB", "Email",
   "Phone", "Address", "Subjects", "Attendance", "Marks", "Grade"]

/-- Python `d[k]` presence-aware lookup: `none` means the key is absent,
`some v` means the key is present with value `v` (itself possibly the
Python `None`, i.e. `none`). -/
def dictGet : Record → String → Option (Option String)
  | [], _ => none
  | kv :: r, k => if kv.1 = k then some kv.2 else dictGet r k

/-- Python `d.get(k)`: absent keys give `None`. -/
def pyGet (r : Record) (k : String) : Option String :=
  (dictGet r k).getD none

/-- Python `d[k] = v`: replace in place if the key exists (keeping its
position, as CPython dicts do), else append the new key at the end. -/
def dictSet : Record → String → Option String → Record
  | [], k, v => [(k, v)]
  | kv :: r, k, v => if kv.1 = k then (k, v) :: r else kv :: dictSet r k v

/-- Python `d.update(u)`: set every pair of `u` in order. -/
def dictUpdate (r : Record) (u : List (String × Option String)) : Record :=
  u.foldl (fun acc kv => dictSet acc kv.1 kv.2) r

/-- Fold a list of key/value pairs into a dict with `dictSet`. -/
def dictFold (l : List (String × Option String)) (init : Record) : Record :=
  l.foldl (fun acc kv => dictSet acc kv.1 kv.2) init

/-- The key/value pairs `csv.DictReader` derives from one data row:
`zip(fieldnames, row)` followed by `restval = None` padding for the
header columns the row does not reach.  (Cells beyond the header length,
which CPython collects under the non-string `restkey`, are dropped; no
claim involves them.) -/
def padRow : List String → List String → List (String × Option String)
  | [], _ => []
  | k :: h, [] => (k, none) :: padRow h []
  | k :: h, v :: row => (k, some v) :: padRow h row

/-- One row as `csv.DictReader` returns it: the padded pairs collected
into a Python dict (so a duplicated header column keeps its last value). -/
def readRow (header row : List String) : Record :=
  dictFold (padRow header row) []

/-- The backing CSV file: header line plus data rows. -/
structure CSVFile where
  header : List String
  rows : List (List String)
deriving Repr, DecidableEq

/-- `load_data()`: a missing file is an empty collection, otherwise every
data row becomes one `DictReader` record, in file order. -/
def load_data : Option CSVFile → List Record
  | none => []
  | some f => f.rows.map (readRow f.header)

/-- Does a record carry a key outside `FIELDNAMES`?  `DictWriter` with
the default `extrasaction='raise'` raises `ValueError` on such records. -/
def extraKeys (r : Record) : Bool :=
  r.any (fun kv => !(decide (kv.1 ∈ FIELDNAMES)))

/-- One output row of `csv.DictWriter.writerows`: the record's value for
each declared field, with absent fields and `None` written as `""`. -/
def rowOf (r : Record) : List String :=
  FIELDNAMES.map (fun k => ((dictGet r k).getD none).getD "")

/-- `save_data(data)`: full-snapshot rewrite with the fixed header;
`ValueError` (modelled as `Except.error`) if a record has extra keys. -/
def save_data (data : List Record) : Except String CSVFile :=
  if data.any extraKeys then Except.error "ValueError: extra fields"
  else Except.ok ⟨FIELDNAMES, data.map rowOf⟩

/-- The argument of `calculate_grade` as seen by `float(...)`: either a
value that coerces to a number, or one on which `float` raises
`ValueError`/`TypeError` (non-numeric string, `None`, ...). -/
inductive MarksValue where
  | num (q : ℚ)
  | invalid
deriving Repr, DecidableEq

/-- `calculate_grade(marks)`: coerce to a number (failures become `0`),
then the threshold ladder `>=90  A, >=75  B, >=60  C, >=40  D, else F`. -/
def calculate_grade (marks : MarksValue) : String :=
  let m : ℚ := match marks with
    | MarksValue.num q => q
    | MarksValue.invalid => 0
  if m ≥ 90 then "A"
  else if m ≥ 75 then "B"
  else if m ≥ 60 then "C"
  else if m ≥ 40 then "D"
  else "F"

/-- The dict literal `add_student` appends: all given fields plus the
derived Grade.  Marks and Attendance arrive from the UI as integers and
are stored in their decimal string form (what `DictWriter` writes). -/
def newStudent (name roll course gender dob email phone address subjects : String)
    (attendance marks : ℤ) : Record :=
  [("Name", some name), ("Roll", some roll), ("Course", some course),
   ("Gender", some gender), ("DOB", some dob), ("Email", some email),
   ("Phone", some phone), ("Address", some address), ("Subjects", some subjects),
   ("Attendance", some (toString attendance)), ("Marks", some (toString marks)),
   ("Grade", some (calculate_grade (MarksValue.num (marks : ℚ))))]

/-- The in-memory effect of `add_student` on the loaded snapshot:
`none` when the duplicate-Roll guard fires, else the appended list. -/
def addRecord (data : List Record)
    (name roll course gender dob email phone address subjects : String)
    (attendance marks : ℤ) : Option (List Record) :=
  if data.any (fun s => pyGet s "Roll" == some roll) then none
  else some (data ++ [newStudent name roll course gender dob email phone address subjects attendance marks])

/-- Outcome of one load-mutate-save operation: the resulting store
state, whether `save_data` was invoked at all, and the success signal
surfaced to the caller. -/
structure OpResult where
  file : Option CSVFile
  saved : Bool
  ok : Bool
deriving Repr, DecidableEq

/-- `add_student(...)` against the backing store: load, duplicate-Roll
guard (early return, no save), else append and save. -/
def add_student (file : Option CSVFile)
    (name roll course gender dob email phone address subjects : String)
    (attendance marks : ℤ) : Except String OpResult :=
  match addRecord (load_data file) name roll course gender dob email phone address subjects attendance marks with
  | none => Except.ok ⟨file, false, false⟩
  | some data2 =>
    match save_data data2 with
    | Except.ok f => Except.ok ⟨some f, true, true⟩
    | Except.error e => Except.error e

/-- The loop of `update_student`: merge `u` into the first record whose
Roll equals the key; `none` when no record matches. -/
def update_first : List Record → String → List (String × Option String) → Option (List Record)
  | [], _, _ => none
  | row :: rest, roll, u =>
    if pyGet row "Roll" == some roll then some (dictUpdate row u :: rest)
    else match update_first rest roll u with
      | none => none
      | some rest2 => some (row :: rest2)

/-- `update_student(roll, updated_info)` against the backing store:
returns `False` (and performs no write) when no record matches, else
saves the merged snapshot and returns `True`. -/
def update_student (file : Option CSVFile) (roll : String)
    (u : List (String × Option String)) : Except String OpResult :=
  match update_first (load_data file) roll u with
  | none => Except.ok ⟨file, false, false⟩
  | some data2 =>
    match save_data data2 with
    | Except.ok f => Except.ok ⟨some f, true, true⟩
    | Except.error e => Except.error e

/-- The filter inside `delete_student`: keep the rows whose Roll does
not equal the key. -/
def delete_student (data : List Record) (roll : String) : List Record :=
  data.filter (fun row => !(pyGet row "Roll" == some roll))

/-- The "Delete Student" UI branch: snapshot the length before,
`delete_student` (which always saves the filtered snapshot), reload, and
report success exactly when the length changed. -/
def delete_flow (file : Option CSVFile) (roll : String) : Except String OpResult :=
  let before := load_data file
  match save_data (delete_student before roll) with
  | Except.ok f =>
    Except.ok ⟨some f, true, decide (before.length ≠ (load_data (some f)).length)⟩
  | Except.error e => Except.error e

/-- Numeric value of a digit character. -/
def digitVal (c : Char) : ℕ := c.toNat - 48

/-- The natural number denoted by a digit string. -/
def natOfDigits (cs : List Char) : ℕ :=
  cs.foldl (fun n c => 10 * n + digitVal c) 0

/-- Python `float` on an unsigned literal: digits with an optional
single decimal point, at least one digit overall ("5", "5.", ".5";
"abc", "", "." fail).  Exponents, `inf`/`nan`, underscores and
surrounding whitespace are outside the claims and not modelled. -/
def parseUnsigned : List Char → Option ℚ
  | cs =>
    let intPart := cs.takeWhile (fun c => c.isDigit)
    let rest := cs.dropWhile (fun c => c.isDigit)
    match rest with
    | [] => if intPart.isEmpty then none else some (natOfDigits intPart)
    | '.' :: frac =>
      if frac.all (fun c => c.isDigit) && !(intPart.isEmpty && frac.isEmpty) then
        some ((natOfDigits intPart : ℚ) + (natOfDigits frac : ℚ) / (10 : ℚ) ^ frac.length)
      else none
    | _ => none

/-- Python `float(s)` for a string, with an optional leading sign. -/
def pyFloatOfString : String → Option ℚ
  | s =>
    match s.toList with
    | '+' :: cs => parseUnsigned cs
    | '-' :: cs => (parseUnsigned cs).map (fun q => -q)
    | cs => parseUnsigned cs

/-- `float(s.get(k, 0) or 0)` from the dashboard: absent key gives the
int `0`; a present falsy value (`None` or `""`) is replaced by `0`; any
other string must parse or `float` raises (`none`). -/
def fieldVal (r : Record) (k : String) : Option ℚ :=
  match dictGet r k with
  | none => some 0
  | some none => some 0
  | some (some s) => if s = "" then some 0 else pyFloatOfString s

/-- `sum(float(s.get(k, 0) or 0) for s in data)`, propagating a raised
`ValueError` as `none`. -/
def sumField : List Record → String → Option ℚ
  | [], _ => some 0
  | r :: rs, k =>
    match fieldVal r k, sumField rs k with
    | some x, some s => some (x + s)
    | _, _ => none

/-- Python banker's rounding to an integer (`round` with ties to even),
on exact rationals.  `x.num.fdiv x.den` is the floor of `x`. -/
def roundHalfEven (x : ℚ) : ℤ :=
  let n := x.num.fdiv (x.den : ℤ)
  if x - (n : ℚ) < 1 / 2 then n
  else if 1 / 2 < x - (n : ℚ) then n + 1
  else if n % 2 = 0 then n else n + 1

/-- Python `round(x, 2)` on exact rationals. -/
def round2 (x : ℚ) : ℚ := (roundHalfEven (100 * x) : ℚ) / 100

/-- The Dashboard aggregation: count, `round(sum/total, 2)` means of
Marks and Attendance (`0` for an empty collection), `none` when a
`float` coercion raises. -/
def dashboard (data : List Record) : Option (ℕ × ℚ × ℚ) :=
  match sumField data "Marks", sumField data "Attendance" with
  | some sm, some sa =>
    some (data.length,
      if data.length = 0 then 0 else round2 (sm / (data.length : ℚ)),
      if data.length = 0 then 0 else round2 (sa / (data.length : ℚ)))
  | _, _ => none

/-- The Roll values actually present in a snapshot (records without a
Roll field, or with Roll `None`, contribute nothing). -/
def rollValues (data : List Record) : List String :=
  (data.map (fun r => pyGet r "Roll")).filterMap id

/-- No two records of the snapshot share a Roll value. -/
def rollsUnique (data : List Record) : Prop := (rollValues data).Nodup

instance (data : List Record) : Decidable (rollsUnique data) :=
  List.nodupDecidable (rollValues data)

/-- A backing file in the exact shape `save_data` produces: canonical
header and full-width rows. -/
def wellFormedB (f : CSVFile) : Bool :=
  f.header == FIELDNAMES && f.rows.all (fun row => row.length == FIELDNAMES.length)

/-- A store state reachable by the system: missing, or well-formed. -/
def storeWFB : Option CSVFile → Bool
  | none => true
  | some f => wellFormedB f

/-! ## Dictionary lemmas -/

theorem dictGet_dictSet_self (r : Record) (k : String) (v : Option String) :
    dictGet (dictSet r k v) k = some v := by
  induction r with
  | nil => simp [dictSet, dictGet]
  | cons kv r ih =>
    by_cases h : kv.1 = k
    · simp [dictSet, h, dictGet]
    · simp [dictSet, h, dictGet, ih]

theorem dictGet_dictSet_ne (r : Record) (k k' : String) (v : Option String)
    (h : k' ≠ k) : dictGet (dictSet r k v) k' = dictGet r k' := by
  have h' : ¬(k = k') := fun hh => h hh.symm
  induction r with
  | nil => simp [dictSet, dictGet, h']
  | cons kv r ih =>
    by_cases hk : kv.1 = k
    · subst hk
      simp [dictSet, dictGet, h']
    · by_cases hk' : kv.1 = k'
      · simp [dictSet, hk, dictGet, hk', h, h']
      · simp [dictSet, hk, dictGet, hk', ih]

theorem keys_dictSet_mem (r : Record) (k : String) (v : Option String)
    (h : k ∈ r.map Prod.fst) :
    (dictSet r k v).map Prod.fst = r.map Prod.fst := by
  induction r with
  | nil => simp at h
  | cons kv r ih =>
    by_cases hk : kv.1 = k
    · simp [dictSet, hk]
    · simp only [List.map_cons, List.mem_cons] at h
      rcases h with h | h
    

    
      · exact absurd h.symm hk
      · simp [dictSet, hk, ih h]

theorem dictSet_notMem (r : Record) (k : String) (v : Option String)
    (h : k ∉ r.map Prod.fst) : dictSet r k v = r ++ [(k, v)] := by
  induction r with
  | nil => simp [dictSet]
  | cons kv r ih =>
    simp only [List.map_cons, List.mem_cons, not_or] at h
    have h1 : ¬(kv.1 = k) := fun hh => h.1 hh.symm
    simp [dictSet, h1, ih h.2]

theorem dictGet_eq_none_iff (r : Record) (k : String) :
    dictGet r k = none ↔ k ∉ r.map Prod.fst := by
  induction r with
  | nil => simp [dictGet]
  | cons kv r ih =>
    by_cases h : kv.1 = k
    · subst h
      simp [dictGet]
    · have h1 : ¬(k = kv.1) := fun hh => h hh.symm
      simp [dictGet, h, ih, h1]

theorem dictGet_dictUpdate_notMem (u : List (String × Option String)) (r : Record)
    (k : String) (h : k ∉ u.map Prod.fst) :
    dictGet (dictUpdate r u) k = dictGet r k := by
  induction u generalizing r with
  | nil => simp [dictUpdate]
  | cons kv u ih =>
    simp only [List.map_cons, List.mem_cons, not_or] at h
    show dictGet (dictUpdate (dictSet r kv.1 kv.2) u) k = dictGet r k
    rw [ih _ h.2, dictGet_dictSet_ne _ _ _ _ h.1]

theorem dictGet_dictUpdate_mem (u : List (String × Option String)) (r : Record)
    (k : String) (v : Option String) (hnd : (u.map Prod.fst).Nodup)
    (h : (k, v) ∈ u) : dictGet (dictUpdate r u) k = some v := by
  induction u generalizing r with
  | nil => simp at h
  | cons kv u ih =>
    simp only [List.map_cons, List.nodup_cons] at hnd
    rcases List.mem_cons.mp h with h | h
    · subst h
      show dictGet (dictUpdate (dictSet r k v) u) k = some v
      rw [dictGet_dictUpdate_notMem _ _ _ hnd.1, dictGet_dictSet_self]
    · exact ih (dictSet r kv.1 kv.2) hnd.2 h

theorem keys_dictSet_subset (r : Record) (k : String) (v : Option String)
    (a : String) (h : a ∈ (dictSet r k v).map Prod.fst) :
    a ∈ r.map Prod.fst ∨ a = k := by
  by_cases hm : k ∈ r.map Prod.fst
  · rw [keys_dictSet_mem r k v hm] at h; exact Or.inl h
  · rw [dictSet_notMem r k v hm] at h
    simp only [List.map_append, List.mem_append, List.map_cons, List.map_nil,
      List.mem_singleton] at h
    simpa using h

theorem keys_dictUpdate_subset (u : List (String × Option String)) (r : Record)
    (a : String) (h : a ∈ (dictUpdate r u).map Prod.fst) :
    a ∈ r.map Prod.fst ∨ a ∈ u.map Prod.fst := by
  induction u generalizing r with
  | nil => exact Or.inl h
  | cons kv u ih =>
    rcases ih (dictSet r kv.1 kv.2) h with h' | h'
    · rcases keys_dictSet_subset r kv.1 kv.2 a h' with h'' | h''
      · exact Or.inl h''
      · exact Or.inr (by simp [h''])
    · exact Or.inr (by simp [h'])

/-! ## Reader/writer lemmas -/

theorem keys_padRow (h row : List String) :
    (padRow h row).map Prod.fst = h := by
  induction h generalizing row with
  | nil => simp [padRow]
  | cons k h ih =>
    cases row with
    | nil => simp [padRow, ih]
    | cons v row => simp [padRow, ih]

theorem dictFold_fresh (l : List (String × Option String)) (acc : Record)
    (hnd : (l.map Prod.fst).Nodup)
    (hfresh : ∀ k ∈ l.map Prod.fst, k ∉ acc.map Prod.fst) :
    dictFold l acc = acc ++ l := by
  induction l generalizing acc with
  | nil => simp [dictFold]
  | cons kv l ih =>
    simp only [List.map_cons, List.nodup_cons] at hnd
    have hk : kv.1 ∉ acc.map Prod.fst := hfresh kv.1 (by simp)
    have step : dictFold (kv :: l) acc = dictFold l (acc ++ [(kv.1, kv.2)]) := by
      show dictFold l (dictSet acc kv.1 kv.2) = _
      rw [dictSet_notMem acc kv.1 kv.2 hk]
    have hf : ∀ k ∈ l.map Prod.fst, k ∉ (acc ++ [(kv.1, kv.2)]).map Prod.fst := by
      intro k hkl
      have h1 : k ∉ acc.map Prod.fst := hfresh k (by simp [hkl])
      have h2 : ¬(k = kv.1) := fun hh => hnd.1 (hh ▸ hkl)
      simp [h1, h2]
    rw [step, ih (acc ++ [(kv.1, kv.2)]) hnd.2 hf]
    simp

theorem readRow_eq_padRow (h row : List String) (hnd : h.Nodup) :
    readRow h row = padRow h row := by
  have hk : (padRow h row).map Prod.fst = h := keys_padRow h row
  have := dictFold_fresh (padRow h row) [] (by rw [hk]; exact hnd) (by simp)
  simpa [readRow] using this

theorem keys_readRow (h row : List String) (hnd : h.Nodup) :
    (readRow h row).map Prod.fst = h := by
  rw [readRow_eq_padRow h row hnd, keys_padRow]

theorem dictGet_padRow_short (h : List String) (k : String) :
    ∀ row : List String, h.Nodup → k ∈ h.drop row.length →
      dictGet (padRow h row) k = some none := by
  induction h with
  | nil => intro row _ hk; simp at hk
  | cons k0 h ih =>
    intro row hnd hk
    have hnd' := List.nodup_cons.mp hnd
    cases row with
    | nil =>
      simp only [List.length_nil, List.drop_zero] at hk
      rcases List.mem_cons.mp hk with hk | hk
      · subst hk
        simp [padRow, dictGet]
      · have hne : ¬(k0 = k) := fun hh => hnd'.1 (hh ▸ hk)
        simp only [padRow, dictGet, hne, if_false]
        exact ih [] hnd'.2 (by simpa using hk)
    | cons v row =>
      simp only [List.length_cons, List.drop_succ_cons] at hk
      have hmem : k ∈ h := List.mem_of_mem_drop hk
      have hne : ¬(k0 = k) := fun hh => hnd'.1 (hh ▸ hmem)
      simp only [padRow, dictGet, hne, if_false]
      exact ih row hnd'.2 hk

theorem rowOfH_padRow (h : List String) :
    ∀ row : List String, h.Nodup → row.length = h.length →
      h.map (fun k => ((dictGet (padRow h row) k).getD none).getD "") = row := by
  induction h with
  | nil =>
    intro row _ hl
    cases row with
    | nil => simp
    | cons v row => simp at hl
  | cons k0 h ih =>
    intro row hnd hl
    cases row with
    | nil => simp at hl
    | cons v row =>
      have hl' : row.length = h.length := by simpa using hl
      have hnd' := List.nodup_cons.mp hnd
      simp only [padRow, List.map_cons]
      have hcong : ∀ k ∈ h,
          ((dictGet ((k0, some v) :: padRow h row) k).getD none).getD ""
            = ((dictGet (padRow h row) k).getD none).getD "" := by
        intro k hkh
        have hne : ¬(k0 = k) := fun hh => hnd'.1 (hh ▸ hkh)
        simp [dictGet, hne]
      rw [List.map_congr_left hcong, ih row hnd'.2 hl']
      simp [dictGet]

theorem FIELDNAMES_nodup : FIELDNAMES.Nodup := by decide

theorem rowOf_readRow (row : List String) (hl : row.length = FIELDNAMES.length) :
    rowOf (readRow FIELDNAMES row) = row := by
  unfold rowOf
  rw [readRow_eq_padRow FIELDNAMES row FIELDNAMES_nodup]
  exact rowOfH_padRow FIELDNAMES row FIELDNAMES_nodup hl

theorem extraKeys_eq_false (r : Record)
    (hsub : ∀ k ∈ r.map Prod.fst, k ∈ FIELDNAMES) : extraKeys r = false := by
  unfold extraKeys
  rw [List.any_eq_false]
  intro kv hkv
  have := hsub kv.1 (List.mem_map_of_mem Prod.fst hkv)
  simp [this]

theorem save_data_eq_ok (data : List Record)
    (hsub : ∀ r ∈ data, ∀ k ∈ r.map Prod.fst, k ∈ FIELDNAMES) :
    save_data data = Except.ok ⟨FIELDNAMES, data.map rowOf⟩ := by
  have hany : data.any extraKeys = false := by
    rw [List.any_eq_false]
    intro r hr
    simp [extraKeys_eq_false r (hsub r hr)]
  simp [save_data, hany]

theorem keys_load (f : CSVFile) (hnd : f.header.Nodup) (r : Record)
    (hr : r ∈ load_data (some f)) : r.map Prod.fst = f.header := by
  simp only [load_data, List.mem_map] at hr
  obtain ⟨row, hrow, rfl⟩ := hr
  exact keys_readRow f.header row hnd

theorem wellFormedB_iff (f : CSVFile) :
    wellFormedB f = true ↔
      f.header = FIELDNAMES ∧ ∀ row ∈ f.rows, row.length = FIELDNAMES.length := by
  simp [wellFormedB, List.all_eq_true]

theorem load_keys_wf (file : Option CSVFile) (hwf : storeWFB file = true)
    (r : Record) (hr : r ∈ load_data file) : r.map Prod.fst = FIELDNAMES := by
  cases file with
  | none => simp [load_data] at hr
  | some f =>
    have hh := ((wellFormedB_iff f).mp hwf).1
    rw [keys_load f (by rw [hh]; exact FIELDNAMES_nodup) r hr, hh]

theorem load_save_wf (f : CSVFile) (hwf : wellFormedB f = true) :
    save_data (load_data (some f)) = Except.ok f := by
  obtain ⟨hh, hrows⟩ := (wellFormedB_iff f).mp hwf
  have hndh : f.header.Nodup := by rw [hh]; exact FIELDNAMES_nodup
  have hsub : ∀ r ∈ load_data (some f), ∀ k ∈ r.map Prod.fst, k ∈ FIELDNAMES := by
    intro r hr k hk
    rw [keys_load f hndh r hr, hh] at hk
    exact hk
  rw [save_data_eq_ok _ hsub]
  congr 1
  cases f with
  | mk header rows =>
    simp only at hh
    subst hh
    simp only [load_data, List.map_map]
    congr 1
    conv_rhs => rw [← List.map_id rows]
    refine List.map_congr_left ?_
    intro row hrow
    simp only [Function.comp_apply, id_eq]
    exact rowOf_readRow row (hrows row hrow)

/-! ## Operation lemmas -/

theorem update_first_eq_none_iff (data : List Record) (roll : String)
    (u : List (String × Option String)) :
    update_first data roll u = none ↔ ∀ r ∈ data, pyGet r "Roll" ≠ some roll := by
  induction data with
  | nil => simp [update_first]
  | cons row rest ih =>
    by_cases h : pyGet row "Roll" = some roll
    · constructor
      · intro hnone
        exfalso
        simp [update_first, h] at hnone
      · intro hall
        exact absurd h (hall row (by simp))
    · cases hcase : update_first rest roll u with
      | none =>
        have hall := ih.mp hcase
        constructor
        · intro _ r hr
          rcases List.mem_cons.mp hr with rfl | hr
          · exact h
          · exact hall r hr
        · intro _
          simp [update_first, h, hcase]
      | some rest2 =>
        constructor
        · intro hnone
          simp [update_first, h, hcase] at hnone
        · intro hall
          exfalso
          have hnone : update_first rest roll u = none :=
            ih.mpr (fun r hr => hall r (by simp [hr]))
          simp [hcase] at hnone

theorem update_first_found (roll : String) (u : List (String × Option String))
    (pre : List Record) (r : Record) (post : List Record)
    (hpre : ∀ p ∈ pre, pyGet p "Roll" ≠ some roll)
    (hr : pyGet r "Roll" = some roll) :
    update_first (pre ++ r :: post) roll u = some (pre ++ dictUpdate r u :: post) := by
  induction pre with
  | nil => simp [update_first, hr]
  | cons p pre ih =>
    have hp : pyGet p "Roll" ≠ some roll := hpre p (by simp)
    have ih' := ih (fun q hq => hpre q (by simp [hq]))
    simp [update_first, hp, ih']

theorem rollValues_cons (r : Record) (l : List Record) :
    rollValues (r :: l) = (pyGet r "Roll").toList ++ rollValues l := by
  cases hpg : pyGet r "Roll" <;> simp [rollValues, List.filterMap_cons, hpg]

theorem rollValues_append (d1 d2 : List Record) :
    rollValues (d1 ++ d2) = rollValues d1 ++ rollValues d2 := by
  simp [rollValues, List.filterMap_append]

theorem mem_rollValues (data : List Record) (v : String) :
    v ∈ rollValues data ↔ ∃ r ∈ data, pyGet r "Roll" = some v := by
  simp [rollValues, List.mem_filterMap, List.mem_map]

theorem rollValues_sublist (d1 d2 : List Record) (h : d1.Sublist d2) :
    (rollValues d1).Sublist (rollValues d2) :=
  List.Sublist.filterMap id (List.Sublist.map _ h)

theorem pyGet_dictUpdate_other (r : Record) (u : List (String × Option String))
    (k : String) (h : k ∉ u.map Prod.fst) :
    pyGet (dictUpdate r u) k = pyGet r k := by
  unfold pyGet
  rw [dictGet_dictUpdate_notMem u r k h]

theorem rollValues_update_first (data : List Record) (roll : String)
    (u : List (String × Option String)) (hroll : "Roll" ∉ u.map Prod.fst) :
    ∀ data', update_first data roll u = some data' →
      rollValues data' = rollValues data := by
  induction data with
  | nil => intro data' h; simp [update_first] at h
  | cons row rest ih =>
    intro data' h
    by_cases hb : pyGet row "Roll" = some roll
    · simp [update_first, hb] at h
      subst h
      rw [rollValues_cons, rollValues_cons,
        pyGet_dictUpdate_other row u "Roll" hroll]
    · cases hcase : update_first rest roll u with
      | none => simp [update_first, hb, hcase] at h
      | some rest2 =>
        simp [update_first, hb, hcase] at h
        subst h
        rw [rollValues_cons, rollValues_cons, ih rest2 hcase]

theorem sumField_eq_some (data : List Record) (k : String)
    (h : ∀ r ∈ data, (fieldVal r k).isSome) :
    sumField data k = some ((data.map (fun r => (fieldVal r k).getD 0)).sum) := by
  induction data with
  | nil => simp [sumField]
  | cons r rs ih =>
    obtain ⟨x, hx⟩ := Option.isSome_iff_exists.mp (h r (by simp))
    have hrest := ih (fun s hs => h s (by simp [hs]))
    simp [sumField, hx, hrest]

theorem sumField_eq_none (data : List Record) (k : String)
    (h : ∃ r ∈ data, fieldVal r k = none) : sumField data k = none := by
  induction data with
  | nil => simp at h
  | cons r rs ih =>
    rcases h with ⟨s, hs, hnone⟩
    rcases List.mem_cons.mp hs with rfl | hs'
    · simp [sumField, hnone]
    · have hrest := ih ⟨s, hs', hnone⟩
      cases hfv : fieldVal r k <;> simp [sumField, hfv, hrest]

theorem delete_shrinks_iff (data : List Record) (roll : String) :
    (delete_student data roll).length ≠ data.length ↔
      ∃ r ∈ data, pyGet r "Roll" = some roll := by
  unfold delete_student
  constructor
  · intro h
    by_contra hno
    push_neg at hno
    have heq : data.filter (fun row => !(pyGet row "Roll" == some roll)) = data := by
      rw [List.filter_eq_self]
      intro a ha
      simp [hno a ha]
    exact h (by rw [heq])
  · rintro ⟨r, hr, hroll⟩ h
    have heq := (List.filter_sublist data).eq_of_length h
    have hmem : r ∈ data.filter (fun row => !(pyGet row "Roll" == some roll)) := by
      rw [heq]
      exact hr
    rw [List.mem_filter] at hmem
    simp [hroll] at hmem

theorem map_rowOf_load (f : CSVFile) (hwf : wellFormedB f = true) :
    (load_data (some f)).map rowOf = f.rows := by
  obtain ⟨hh, hrows⟩ := (wellFormedB_iff f).mp hwf
  cases f with
  | mk header rows =>
    simp only at hh hrows
    subst hh
    simp only [load_data, List.map_map]
    conv_rhs => rw [← List.map_id rows]
    refine List.map_congr_left ?_
    intro row hrow
    simp only [Function.comp_apply, id_eq]
    exact rowOf_readRow row (hrows row hrow)

theorem load_length (f : CSVFile) :
    (load_data (some f)).length = f.rows.length := by
  simp [load_data]

theorem keys_newStudent (name roll course gender dob email phone address subjects : String)
    (attendance marks : ℤ) :
    (newStudent name roll course gender dob email phone address subjects attendance marks).map Prod.fst
      = FIELDNAMES := by
  simp [newStudent, FIELDNAMES]

theorem pyGet_newStudent_Roll (name roll course gender dob email phone address subjects : String)
    (attendance marks : ℤ) :
    pyGet (newStudent name roll course gender dob email phone address subjects attendance marks) "Roll"
      = some roll := by
  simp [newStudent, pyGet, dictGet]

theorem dictGet_newStudent_Grade (name roll course gender dob email phone address subjects : String)
    (attendance marks : ℤ) :
    dictGet (newStudent name roll course gender dob email phone address subjects attendance marks) "Grade"
      = some (some (calculate_grade (MarksValue.num (marks : ℚ)))) := by
  simp [newStudent, dictGet]

/-! ## Claim theorems -/

theorem calculate_grade_num (q : ℚ) :
    calculate_grade (MarksValue.num q) =
      if q ≥ 90 then "A" else if q ≥ 75 then "B" else if q ≥ 60 then "C"
      else if q ≥ 40 then "D" else "F" := rfl

/-- Claim C2: `calculate_grade` coerces its input to a number (treating
non-numeric or absent input as 0) and returns exactly A for marks ≥ 90,
B for 75 ≤ marks < 90, C for 60 ≤ marks < 75, D for 40 ≤ marks < 60 and
F for marks < 40; with the stated boundary values and F on coercion
failure. -/
theorem claim_C2_grade_thresholds :
    (∀ q : ℚ, 90 ≤ q → calculate_grade (MarksValue.num q) = "A") ∧
    (∀ q : ℚ, 75 ≤ q → q < 90 → calculate_grade (MarksValue.num q) = "B") ∧
    (∀ q : ℚ, 60 ≤ q → q < 75 → calculate_grade (MarksValue.num q) = "C") ∧
    (∀ q : ℚ, 40 ≤ q → q < 60 → calculate_grade (MarksValue.num q) = "D") ∧
    (∀ q : ℚ, q < 40 → calculate_grade (MarksValue.num q) = "F") ∧
    calculate_grade (MarksValue.num 90) = "A" ∧
    calculate_grade (MarksValue.num (89999 / 1000)) = "B" ∧
    calculate_grade (MarksValue.num 75) = "B" ∧
    calculate_grade (MarksValue.num (74999 / 1000)) = "C" ∧
    calculate_grade (MarksValue.num 60) = "C" ∧
    calculate_grade (MarksValue.num (59999 / 1000)) = "D" ∧
    calculate_grade (MarksValue.num 40) = "D" ∧
    calculate_grade (MarksValue.num (39999 / 1000)) = "F" ∧
    calculate_grade MarksValue.invalid = "F" := by
  refine ⟨?_, ?_, ?_, ?_, ?_, ?_, ?_, ?_, ?_, ?_, ?_, ?_, ?_, ?_⟩
  · intro q h
    rw [calculate_grade_num, if_pos (by linarith)]
  · intro q h h'
    rw [calculate_grade_num, if_neg (by simp; linarith), if_pos (by linarith)]
  · intro q h h'
    rw [calculate_grade_num, if_neg (by simp; linarith), if_neg (by simp; linarith),
      if_pos (by linarith)]
  · intro q h h'
    rw [calculate_grade_num, if_neg (by simp; linarith), if_neg (by simp; linarith),
      if_neg (by simp; linarith), if_pos (by linarith)]
  · intro q h
    rw [calculate_grade_num, if_neg (by simp; linarith), if_neg (by simp; linarith),
      if_neg (by simp; linarith), if_neg (by simp; linarith)]
  · rw [calculate_grade_num]; norm_num
  · rw [calculate_grade_num]; norm_num
  · rw [calculate_grade_num]; norm_num
  · rw [calculate_grade_num]; norm_num
  · rw [calculate_grade_num]; norm_num
  · rw [calculate_grade_num]; norm_num
  · rw [calculate_grade_num]; norm_num
  · rw [calculate_grade_num]; norm_num
  · rfl

/-- Witness for C2 at a concrete interior point of the B band. -/
theorem claim_C2_grade_thresholds_witness :
    calculate_grade (MarksValue.num 80) = "B" :=
  claim_C2_grade_thresholds.2.1 80 (by norm_num) (by norm_num)

/-- Claim C8: for every well-formed backing store, saving the sequence
returned by load reproduces the same table: `save(load())` is a no-op
on stored content. -/
theorem claim_C8_roundtrip (f : CSVFile) (hwf : wellFormedB f = true) :
    save_data (load_data (some f)) = Except.ok f :=
  load_save_wf f hwf

/-- Witness for C8 at a concrete one-record store. -/
theorem claim_C8_roundtrip_witness :
    save_data (load_data (some ⟨FIELDNAMES,
        [["a", "r1", "c", "g", "2000-01-01", "e", "p", "ad", "s", "90", "95", "A"]]⟩))
      = Except.ok ⟨FIELDNAMES,
        [["a", "r1", "c", "g", "2000-01-01", "e", "p", "ad", "s", "90", "95", "A"]]⟩ :=
  claim_C8_roundtrip _ (by decide)

/-- Claim C1: if an existing record's Roll equals the new record's Roll,
`add_student` rejects the insert and the store is untouched (no save);
otherwise it appends the new record at the end — its Grade computed from
Marks — and saves the full snapshot. -/
theorem claim_C1_add_student (file : Option CSVFile)
    (name roll course gender dob email phone address subjects : String)
    (attendance marks : ℤ) :
    ((∃ s ∈ load_data file, pyGet s "Roll" = some roll) →
      add_student file name roll course gender dob email phone address subjects attendance marks
        = Except.ok ⟨file, false, false⟩) ∧
    (storeWFB file = true →
      (∀ s ∈ load_data file, pyGet s "Roll" ≠ some roll) →
      add_student file name roll course gender dob email phone address subjects attendance marks
        = Except.ok ⟨some ⟨FIELDNAMES,
            (load_data file
              ++ [newStudent name roll course gender dob email phone address subjects attendance marks]).map rowOf⟩,
          true, true⟩) ∧
    pyGet (newStudent name roll course gender dob email phone address subjects attendance marks) "Roll"
      = some roll ∧
    dictGet (newStudent name roll course gender dob email phone address subjects attendance marks) "Grade"
      = some (some (calculate_grade (MarksValue.num (marks : ℚ)))) := by
  refine ⟨?_, ?_,
    pyGet_newStudent_Roll name roll course gender dob email phone address subjects attendance marks,
    dictGet_newStudent_Grade name roll course gender dob email phone address subjects attendance marks⟩
  · rintro ⟨s, hs, hroll⟩
    have hany : (load_data file).any (fun s => pyGet s "Roll" == some roll) = true := by
      rw [List.any_eq_true]
      exact ⟨s, hs, by simp [hroll]⟩
    simp [add_student, addRecord, hany]
  · intro hwf hno
    have hany : (load_data file).any (fun s => pyGet s "Roll" == some roll) = false := by
      rw [List.any_eq_false]
      intro s hs
      simp [hno s hs]
    have hsub : ∀ r ∈ load_data file
        ++ [newStudent name roll course gender dob email phone address subjects attendance marks],
        ∀ k ∈ r.map Prod.fst, k ∈ FIELDNAMES := by
      intro r hr k hk
      rcases List.mem_append.mp hr with hr | hr
      · rw [load_keys_wf file hwf r hr] at hk
        exact hk
      · rw [List.mem_singleton] at hr
        subst hr
        rw [keys_newStudent] at hk
        exact hk
    have hsave := save_data_eq_ok _ hsub
    simp [add_student, addRecord, hany, hsave]

/-- Witness for C1: appending a second, fresh-Roll record to a concrete
one-record store. -/
theorem claim_C1_add_student_witness :
    add_student
        (some ⟨FIELDNAMES, [["a", "r1", "c", "g", "2000-01-01", "e", "p", "ad", "s", "90", "95", "A"]]⟩)
        "b" "r2" "c" "g" "2001-01-01" "e" "p" "ad" "s" 80 85
      = Except.ok ⟨some ⟨FIELDNAMES,
          (load_data (some ⟨FIELDNAMES, [["a", "r1", "c", "g", "2000-01-01", "e", "p", "ad", "s", "90", "95", "A"]]⟩)
            ++ [newStudent "b" "r2" "c" "g" "2001-01-01" "e" "p" "ad" "s" 80 85]).map rowOf⟩,
        true, true⟩ :=
  (claim_C1_add_student
      (some ⟨FIELDNAMES, [["a", "r1", "c", "g", "2000-01-01", "e", "p", "ad", "s", "90", "95", "A"]]⟩)
      "b" "r2" "c" "g" "2001-01-01" "e" "p" "ad" "s" 80 85).2.1
    (by decide) (by decide)

/-- Claim C6: `update_student` finds the first record whose Roll equals
the key; if found it overwrites exactly the fields named in the partial
map in that record, leaves its other fields and all other records
unchanged, saves and returns success; it returns failure exactly when no
record matches. -/
theorem claim_C6_update_student (file : Option CSVFile) (roll : String)
    (u : List (String × Option String))
    (hnd : (u.map Prod.fst).Nodup)
    (hu : ∀ k ∈ u.map Prod.fst, k ∈ FIELDNAMES)
    (hwf : storeWFB file = true) :
    (update_first (load_data file) roll u = none ↔
      ∀ r ∈ load_data file, pyGet r "Roll" ≠ some roll) ∧
    ((∀ r ∈ load_data file, pyGet r "Roll" ≠ some roll) →
      update_student file roll u = Except.ok ⟨file, false, false⟩) ∧
    (∀ pre r post, load_data file = pre ++ r :: post →
      (∀ p ∈ pre, pyGet p "Roll" ≠ some roll) →
      pyGet r "Roll" = some roll →
      update_first (load_data file) roll u = some (pre ++ dictUpdate r u :: post) ∧
      update_student file roll u
        = Except.ok ⟨some ⟨FIELDNAMES, (pre ++ dictUpdate r u :: post).map rowOf⟩, true, true⟩) ∧
    (∀ r : Record, ∀ k v, (k, v) ∈ u → dictGet (dictUpdate r u) k = some v) ∧
    (∀ r : Record, ∀ k, k ∉ u.map Prod.fst → dictGet (dictUpdate r u) k = dictGet r k) := by
  have hmemload : ∀ t ∈ load_data file, ∀ k ∈ t.map Prod.fst, k ∈ FIELDNAMES := by
    intro t ht k hk
    rw [load_keys_wf file hwf t ht] at hk
    exact hk
  refine ⟨update_first_eq_none_iff _ _ _, ?_, ?_, ?_, ?_⟩
  · intro hno
    have hnone := (update_first_eq_none_iff (load_data file) roll u).mpr hno
    simp [update_student, hnone]
  · intro pre r post heq hpre hr
    have hup : update_first (load_data file) roll u = some (pre ++ dictUpdate r u :: post) := by
      rw [heq]
      exact update_first_found roll u pre r post hpre hr
    refine ⟨hup, ?_⟩
    have hsub : ∀ s ∈ pre ++ dictUpdate r u :: post, ∀ k ∈ s.map Prod.fst, k ∈ FIELDNAMES := by
      intro s hs k hk
      rcases List.mem_append.mp hs with hs | hs
      · exact hmemload s (by rw [heq]; exact List.mem_append.mpr (Or.inl hs)) k hk
      · rcases List.mem_cons.mp hs with rfl | hs
        · rcases keys_dictUpdate_subset u r k hk with hk' | hk'
          · exact hmemload r (by rw [heq]; simp) k hk'
          · exact hu k hk'
        · exact hmemload s (by rw [heq]; simp [hs]) k hk
    have hsave := save_data_eq_ok _ hsub
    simp [update_student, hup, hsave]
  · intro r k v hkv
    exact dictGet_dictUpdate_mem u r k v hnd hkv
  · intro r k hk
    exact dictGet_dictUpdate_notMem u r k hk

/-- Witness for C6: updating the Marks field of a concrete one-record
store. -/
theorem claim_C6_update_student_witness :
    update_first
        (load_data (some ⟨FIELDNAMES, [["a", "r1", "c", "g", "2000-01-01", "e", "p", "ad", "s", "90", "95", "A"]]⟩))
        "r1" [("Marks", some "50")]
      = some ([] ++ dictUpdate
          (readRow FIELDNAMES ["a", "r1", "c", "g", "2000-01-01", "e", "p", "ad", "s", "90", "95", "A"])
          [("Marks", some "50")] :: []) ∧
    update_student
        (some ⟨FIELDNAMES, [["a", "r1", "c", "g", "2000-01-01", "e", "p", "ad", "s", "90", "95", "A"]]⟩)
        "r1" [("Marks", some "50")]
      = Except.ok ⟨some ⟨FIELDNAMES,
          ([] ++ dictUpdate
            (readRow FIELDNAMES ["a", "r1", "c", "g", "2000-01-01", "e", "p", "ad", "s", "90", "95", "A"])
            [("Marks", some "50")] :: []).map rowOf⟩, true, true⟩ :=
  (claim_C6_update_student
      (some ⟨FIELDNAMES, [["a", "r1", "c", "g", "2000-01-01", "e", "p", "ad", "s", "90", "95", "A"]]⟩)
      "r1" [("Marks", some "50")] (by decide) (by decide) (by decide)).2.2.1
    [] (readRow FIELDNAMES ["a", "r1", "c", "g", "2000-01-01", "e", "p", "ad", "s", "90", "95", "A"]) []
    (by decide) (by decide) (by decide)

/-- Claim C7: `delete_student` removes all records whose Roll equals the
key and saves the reduced snapshot; the UI flow signals success exactly
when the collection shrank, and a delete that matches nothing leaves the
stored table unchanged and signals failure. -/
theorem claim_C7_delete (file : Option CSVFile) (roll : String)
    (hwf : storeWFB file = true) :
    (∀ r : Record, r ∈ delete_student (load_data file) roll ↔
      (r ∈ load_data file ∧ pyGet r "Roll" ≠ some roll)) ∧
    (delete_flow file roll
      = Except.ok ⟨some ⟨FIELDNAMES, (delete_student (load_data file) roll).map rowOf⟩, true,
          decide ((load_data file).length ≠ (delete_student (load_data file) roll).length)⟩) ∧
    (((load_data file).length ≠ (delete_student (load_data file) roll).length) ↔
      ∃ r ∈ load_data file, pyGet r "Roll" = some roll) ∧
    ((∀ r ∈ load_data file, pyGet r "Roll" ≠ some roll) →
      ∀ f0, file = some f0 →
        delete_flow file roll = Except.ok ⟨some f0, true, false⟩) := by
  have hsub : ∀ r ∈ delete_student (load_data file) roll,
      ∀ k ∈ r.map Prod.fst, k ∈ FIELDNAMES := by
    intro r hr k hk
    have hr' : r ∈ load_data file := List.mem_of_mem_filter hr
    rw [load_keys_wf file hwf r hr'] at hk
    exact hk
  have hsave := save_data_eq_ok _ hsub
  have hmain : delete_flow file roll
      = Except.ok ⟨some ⟨FIELDNAMES, (delete_student (load_data file) roll).map rowOf⟩, true,
          decide ((load_data file).length ≠ (delete_student (load_data file) roll).length)⟩ := by
    simp [delete_flow, hsave, load_length]
  refine ⟨?_, hmain, ne_comm.trans (delete_shrinks_iff (load_data file) roll), ?_⟩
  · intro r
    simp [delete_student, List.mem_filter]
  · intro hno f0 hfeq
    subst hfeq
    have hwff : wellFormedB f0 = true := hwf
    have hdel : delete_student (load_data (some f0)) roll = load_data (some f0) := by
      rw [delete_student, List.filter_eq_self]
      intro a ha
      simp [hno a ha]
    rw [hmain, hdel]
    have hrows : (load_data (some f0)).map rowOf = f0.rows := map_rowOf_load f0 hwff
    have hh := ((wellFormedB_iff f0).mp hwff).1
    have hfile : (⟨FIELDNAMES, (load_data (some f0)).map rowOf⟩ : CSVFile) = f0 := by
      cases f0 with
      | mk header rows =>
        dsimp only at hh hrows
        rw [hrows, hh]
    rw [hfile]
    simp

/-- Witness for C7: deleting from a store whose only record does not
match leaves the table identical and signals failure. -/
theorem claim_C7_delete_witness :
    delete_flow (some ⟨FIELDNAMES, []⟩) "r1"
      = Except.ok ⟨some ⟨FIELDNAMES, []⟩, true, false⟩ :=
  (claim_C7_delete (some ⟨FIELDNAMES, []⟩) "r1" (by decide)).2.2.2
    (by simp [load_data]) _ rfl

/-- Claim C10: a failed `update_student` (no matching Roll) performs no
write at all — the backing file is exactly as before — whereas the
delete flow rewrites the store even when nothing matched. -/
theorem claim_C10_update_miss_no_write (file : Option CSVFile) (roll : String)
    (u : List (String × Option String)) :
    ((∀ r ∈ load_data file, pyGet r "Roll" ≠ some roll) →
      update_student file roll u = Except.ok ⟨file, false, false⟩) ∧
    (storeWFB file = true →
      ∃ res : OpResult, delete_flow file roll = Except.ok res ∧ res.saved = true) := by
  constructor
  · intro hno
    have hnone := (update_first_eq_none_iff (load_data file) roll u).mpr hno
    simp [update_student, hnone]
  · intro hwf
    have hsub : ∀ r ∈ delete_student (load_data file) roll,
        ∀ k ∈ r.map Prod.fst, k ∈ FIELDNAMES := by
      intro r hr k hk
      have hr' : r ∈ load_data file := List.mem_of_mem_filter hr
      rw [load_keys_wf file hwf r hr'] at hk
      exact hk
    have hsave := save_data_eq_ok _ hsub
    refine ⟨⟨some ⟨FIELDNAMES, (delete_student (load_data file) roll).map rowOf⟩, true,
      decide ((load_data file).length
        ≠ (load_data (some ⟨FIELDNAMES, (delete_student (load_data file) roll).map rowOf⟩)).length)⟩,
      ?_, rfl⟩
    simp [delete_flow, hsave]

/-- Witness for C10: a roll absent from a concrete store. -/
theorem claim_C10_update_miss_no_write_witness :
    update_student
        (some ⟨FIELDNAMES, [["a", "r1", "c", "g", "2000-01-01", "e", "p", "ad", "s", "90", "95", "A"]]⟩)
        "zz" [("Marks", some "1")]
      = Except.ok ⟨some ⟨FIELDNAMES,
          [["a", "r1", "c", "g", "2000-01-01", "e", "p", "ad", "s", "90", "95", "A"]]⟩, false, false⟩ ∧
    ∃ res : OpResult, delete_flow
        (some ⟨FIELDNAMES, [["a", "r1", "c", "g", "2000-01-01", "e", "p", "ad", "s", "90", "95", "A"]]⟩)
        "zz" = Except.ok res ∧ res.saved = true :=
  ⟨(claim_C10_update_miss_no_write
      (some ⟨FIELDNAMES, [["a", "r1", "c", "g", "2000-01-01", "e", "p", "ad", "s", "90", "95", "A"]]⟩)
      "zz" [("Marks", some "1")]).1 (by decide),
   (claim_C10_update_miss_no_write
      (some ⟨FIELDNAMES, [["a", "r1", "c", "g", "2000-01-01", "e", "p", "ad", "s", "90", "95", "A"]]⟩)
      "zz" [("Marks", some "1")]).2 (by decide)⟩

/-- Claim C5 (amended): Roll uniqueness is preserved by Add and Delete
unconditionally, and by Update whenever the partial field map does not
set the Roll field itself (the UI's update form never does). -/
theorem claim_C5_uniqueness_preserved (data : List Record) (roll : String) :
    (∀ (name course gender dob email phone address subjects : String)
        (attendance marks : ℤ) (data' : List Record),
      rollsUnique data →
      addRecord data name roll course gender dob email phone address subjects attendance marks
        = some data' → rollsUnique data') ∧
    (rollsUnique data → rollsUnique (delete_student data roll)) ∧
    (∀ (u : List (String × Option String)) (data' : List Record),
      rollsUnique data → "Roll" ∉ u.map Prod.fst →
      update_first data roll u = some data' → rollsUnique data') := by
  refine ⟨?_, ?_, ?_⟩
  · intro name course gender dob email phone address subjects attendance marks data' hun hadd
    by_cases hany : (data.any (fun s => pyGet s "Roll" == some roll)) = true
    · simp [addRecord, hany] at hadd
    · have hany' : (data.any (fun s => pyGet s "Roll" == some roll)) = false := by
        simpa using hany
      have hno : ∀ s ∈ data, pyGet s "Roll" ≠ some roll := by
        rw [List.any_eq_false] at hany'
        intro s hs
        have := hany' s hs
        simpa using this
      simp [addRecord, hany'] at hadd
      subst hadd
      rw [rollsUnique, rollValues_append, rollValues_cons,
        pyGet_newStudent_Roll name roll course gender dob email phone address subjects attendance marks]
      have hnilvals : rollValues ([] : List Record) = [] := rfl
      rw [hnilvals]
      rw [show (some roll).toList ++ ([] : List String) = [roll] from rfl]
      rw [List.nodup_append]
      refine ⟨hun, List.nodup_singleton roll, ?_⟩
      intro a ha hb
      rw [List.mem_singleton] at hb
      subst hb
      obtain ⟨r, hr, hroll⟩ := (mem_rollValues data a).mp ha
      exact hno r hr hroll
  · intro hun
    exact List.Nodup.sublist (rollValues_sublist _ _ (List.filter_sublist data)) hun
  · intro u data' hun hroll hupd
    rw [rollsUnique, rollValues_update_first data roll u hroll data' hupd]
    exact hun

/-- Counterexample to C5 as stated: an Update whose partial field map
sets Roll itself is accepted by `update_student` and breaks Roll
uniqueness. -/
theorem claim_C5_counterexample :
    rollsUnique [[("Roll", some "1")], [("Roll", some "2")]] ∧
    update_first [[("Roll", some "1")], [("Roll", some "2")]] "1" [("Roll", some "2")]
      = some [[("Roll", some "2")], [("Roll", some "2")]] ∧
    ¬ rollsUnique [[("Roll", some "2")], [("Roll", some "2")]] :=
  ⟨by decide, by decide, by decide⟩

/-- Witness for the amended C5 at a concrete two-record snapshot. -/
theorem claim_C5_uniqueness_preserved_witness :
    rollsUnique (delete_student [[("Roll", some "1")], [("Roll", some "2")]] "1") :=
  (claim_C5_uniqueness_preserved [[("Roll", some "1")], [("Roll", some "2")]] "1").2.1
    (by decide)

/-- Claim C3 (amended): a record returned by load has exactly the file
header's columns as keys: schema fields missing from the header are
absent from the record rather than filled with the empty string, and
header columns beyond a short row's length carry the Python `None`
value, not the empty string. -/
theorem claim_C3_load_shape (f : CSVFile) (hnd : f.header.Nodup) :
    (∀ r ∈ load_data (some f), r.map Prod.fst = f.header) ∧
    (∀ r ∈ load_data (some f), ∀ k, k ∉ f.header → dictGet r k = none) ∧
    (∀ (row : List String) (k : String), k ∈ f.header.drop row.length →
      dictGet (readRow f.header row) k = some none) := by
  refine ⟨fun r hr => keys_load f hnd r hr, ?_, ?_⟩
  · intro r hr k hk
    rw [dictGet_eq_none_iff, keys_load f hnd r hr]
    exact hk
  · intro row k hk
    rw [readRow_eq_padRow f.header row hnd]
    exact dictGet_padRow_short f.header k row hnd hk

/-- Counterexample to C3 as stated: a backing file missing schema
columns yields records that lack the "Roll" key entirely, and a short
row maps "Roll" to the null value, not to the empty string. -/
theorem claim_C3_counterexample :
    load_data (some ⟨["Name"], [["Alice"]]⟩) = [[("Name", some "Alice")]] ∧
    dictGet [("Name", some "Alice")] "Roll" = none ∧
    load_data (some ⟨["Name", "Roll"], [["Alice"]]⟩)
      = [[("Name", some "Alice"), ("Roll", none)]] ∧
    dictGet [("Name", some "Alice"), ("Roll", none)] "Roll" = some none :=
  ⟨by decide, by decide, by decide, by decide⟩

/-- Witness for the amended C3 on a concrete short row. -/
theorem claim_C3_load_shape_witness :
    dictGet (readRow ["Name", "Roll"] ["Alice"]) "Roll" = some none :=
  (claim_C3_load_shape ⟨["Name", "Roll"], [["Alice"]]⟩ (by decide)).2.2
    ["Alice"] "Roll" (by decide)

/-- Claim C9 (amended): load never crashes on wrong or extra columns —
it returns one record per data row — but unrecognized columns are not
ignored: a returned record's keys are exactly the header's columns, so
extra header columns appear in the records, and recognized-but-absent
columns are absent rather than defaulted to the empty string. -/
theorem claim_C9_load_columns (f : CSVFile) (hnd : f.header.Nodup) :
    (load_data (some f)).length = f.rows.length ∧
    (∀ r ∈ load_data (some f), ∀ k, ¬(dictGet r k = none) ↔ k ∈ f.header) := by
  refine ⟨load_length f, ?_⟩
  intro r hr k
  rw [dictGet_eq_none_iff, keys_load f hnd r hr, not_not]

/-- Counterexample to C9 as stated: the unrecognized "Hobby" column
appears in the loaded record, and the recognized-but-absent "Roll"
column is missing, not the empty string. -/
theorem claim_C9_counterexample :
    load_data (some ⟨["Name", "Hobby"], [["A", "chess"]]⟩)
      = [[("Name", some "A"), ("Hobby", some "chess")]] ∧
    dictGet [("Name", some "A"), ("Hobby", some "chess")] "Hobby" = some (some "chess") ∧
    dictGet [("Name", some "A"), ("Hobby", some "chess")] "Roll" = none :=
  ⟨by decide, by decide, by decide⟩

/-- Witness for the amended C9 on a concrete extra-column file. -/
theorem claim_C9_load_columns_witness :
    (load_data (some ⟨["Name", "Hobby"], [["A", "chess"]]⟩)).length
      = ([["A", "chess"]] : List (List String)).length :=
  (claim_C9_load_columns ⟨["Name", "Hobby"], [["A", "chess"]]⟩ (by decide)).1

/-- Claim C4 (amended): the dashboard reports count = size and means
`round(sum/count, 2)` over Marks and Attendance, treating absent, None
and empty values as 0, with an empty collection giving (0, 0, 0) and no
division error; but a non-empty unparsable value makes the aggregation
raise ValueError instead of being treated as 0, and the reported means
are rounded to two decimal places. -/
theorem claim_C4_dashboard (data : List Record) :
    dashboard [] = some (0, 0, 0) ∧
    ((∀ r ∈ data, (fieldVal r "Marks").isSome ∧ (fieldVal r "Attendance").isSome) →
      dashboard data = some (data.length,
        if data.length = 0 then 0
        else round2 ((data.map (fun r => (fieldVal r "Marks").getD 0)).sum / (data.length : ℚ)),
        if data.length = 0 then 0
        else round2 ((data.map (fun r => (fieldVal r "Attendance").getD 0)).sum / (data.length : ℚ)))) ∧
    ((∃ r ∈ data, fieldVal r "Marks" = none ∨ fieldVal r "Attendance" = none) →
      dashboard data = none) := by
  refine ⟨by decide, ?_, ?_⟩
  · intro h
    have hm := sumField_eq_some data "Marks" (fun r hr => (h r hr).1)
    have ha := sumField_eq_some data "Attendance" (fun r hr => (h r hr).2)
    simp [dashboard, hm, ha]
  · rintro ⟨r, hr, hcase⟩
    rcases hcase with hm | ha
    · have hmm := sumField_eq_none data "Marks" ⟨r, hr, hm⟩
      simp [dashboard, hmm]
    · have hatt := sumField_eq_none data "Attendance" ⟨r, hr, ha⟩
      cases hm : sumField data "Marks" <;> simp [dashboard, hm, hatt]

unseal Rat.inv Rat.mul Rat.add Rat.sub in
/-- Counterexample to C4 as stated: an unparsable non-empty Marks value
makes the aggregation raise rather than count as 0, and the reported
mean of three records with Marks 1, 1, 0 is the rounded 0.67, not the
exact sum/count 2/3. -/
theorem claim_C4_counterexample :
    dashboard [[("Marks", some "oops")]] = none ∧
    dashboard [[("Marks", some "1")], [("Marks", some "1")], [("Marks", some "0")]]
      = some (3, 67 / 100, 0) ∧
    (67 / 100 : ℚ) ≠ (1 + 1 + 0) / 3 :=
  ⟨by decide, by decide, by norm_num⟩

/-- Witness for the amended C4 at a concrete one-record snapshot. -/
theorem claim_C4_dashboard_witness :
    dashboard [[("Marks", some "80"), ("Attendance", some "90")]]
      = some (([[("Marks", some "80"), ("Attendance", some "90")]] : List Record).length,
        if ([[("Marks", some "80"), ("Attendance", some "90")]] : List Record).length = 0 then 0
        else round2 ((([[("Marks", some "80"), ("Attendance", some "90")]] : List Record).map
            (fun r => (fieldVal r "Marks").getD 0)).sum
          / (([[("Marks", some "80"), ("Attendance", some "90")]] : List Record).length : ℚ)),
        if ([[("Marks", some "80"), ("Attendance", some "90")]] : List Record).length = 0 then 0
        else round2 ((([[("Marks", some "80"), ("Attendance", some "90")]] : List Record).map
            (fun r => (fieldVal r "Attendance").getD 0)).sum
          / (([[("Marks", some "80"), ("Attendance", some "90")]] : List Record).length : ℚ))) :=
  (claim_C4_dashboard [[("Marks", some "80"), ("Attendance", some "90")]]).2.1 (by decide)
